import Mathlib

/-!
Verification development for the VoicePad speech-to-whiteboard pipeline.

The definitions below are shallow embeddings of the program source:

* `pkg/llm/ollama.go` and `pkg/llm/nvidia.go` (LLM dispatcher clients),
* `pkg/llm/prompts` (prompt construction),
* `frontend/src/modules/board/ui/views/whiteboard.tsx` (change detection),
* the `useDebouncedCallback` hook (debounced change notification).

Go machine integers are modeled as `Nat`, JavaScript numbers as `Rat`,
Go `error` results as `Except String`, and wall-clock timestamps are
omitted (no claim refers to them).
-/

namespace VoicePad

/-- Whitespace predicate of Go `unicode.IsSpace`, used by `strings.TrimSpace`:
tab, newline, vertical tab, form feed, carriage return, space, NEL, NBSP and
the Unicode space separators. -/
def isGoSpace (c : Char) : Bool :=
  let n := c.toNat
  n = 9 || n = 10 || n = 11 || n = 12 || n = 13 || n = 32 ||
  n = 0x85 || n = 0xA0 || n = 0x1680 || (0x2000 ≤ n && n ≤ 0x200A) ||
  n = 0x2028 || n = 0x2029 || n = 0x202F || n = 0x205F || n = 0x3000

/-- Go `strings.TrimSpace`: drop leading and trailing whitespace. -/
def goTrimSpace (s : String) : String :=
  ⟨((s.toList.dropWhile isGoSpace).reverse.dropWhile isGoSpace).reverse⟩

/-- The first 280 characters of the system prompt constant. -/
def sysPromptHead : String :=
  "You convert speech instructions into Excalidraw whiteboard elements. Return ONLY valid JSON, no other text.\n\n## OUTPUT FORMAT (STRICT)\nYou MUST respond with this exact JSON structure:\n\x7b\n  \"action\": \"add\" | \"update\" | \"delete\",\n  \"elements\": [...],  // Required for \"add\" and \"upda"

/-- The remainder of the system prompt constant. -/
def sysPromptRest : String :=
  "te\"\n  \"delete_ids\": [...] // Required only for \"delete\"\n\x7d\n\nCRITICAL: \n- Return ONLY the JSON object, no markdown, no code blocks, no explanations\n- \"action\" is REQUIRED and must be exactly \"add\", \"update\", or \"delete\"\n- For \"add\": include \"elements\" array with new elements\n- For \"update\": include \"elements\" array with modified elements (must include \"id\")\n- For \"delete\": include \"delete_ids\" array with element IDs to remove\n- All JSON must be valid and parseable\n\n## ELEMENT TYPES\n\n### Shapes (rectangle, ellipse, diamond)\nRequired: type, x, y\nOptional: id, width, height, backgroundColor, strokeColor, strokeWidth, strokeStyle, label\n\n\x7b\n  \"type\": \"rectangle\" | \"ellipse\" | \"diamond\",\n  \"id\": \"unique-id\",  // Provide for updates/references\n  \"x\": 100,\n  \"y\": 100,\n  \"width\": 200,  // Default: 100\n  \"height\": 100, // Default: 100\n  \"backgroundColor\": \"#a5d8ff\",\n  \"strokeColor\": \"#1e1e1e\",\n  \"strokeWidth\": 2,\n  \"strokeStyle\": \"solid\" | \"dashed\" | \"dotted\",\n  \"label\": \x7b\n    \"text\": \"Label text\",\n    \"fontSize\": 20,\n    \"strokeColor\": \"#1e1e1e\"\n  \x7d\n\x7d\n\n### Text\nRequired: type, x, y, text\n\n\x7b\n  \"type\": \"text\",\n  \"id\": \"text-id\",\n  \"x\": 100,\n  \"y\": 100,\n  \"text\": \"Hello World\",\n  \"fontSize\": 20,\n  \"strokeColor\": \"#1e1e1e\"\n\x7d\n\n### Arrows\nRequired: type, x, y\nOptional: id, width, height, strokeColor, strokeWidth, start, end, label\n\n\x7b\n  \"type\": \"arrow\",\n  \"id\": \"arrow-id\",\n  \"x\": 200,\n  \"y\": 150,\n  \"width\": 200,\n  \"height\": 0,\n  \"strokeColor\": \"#1e1e1e\",\n  \"strokeWidth\": 2,\n  \"start\": \x7b \"id\": \"source-id\" \x7d,\n  \"end\": \x7b \"id\": \"target-id\" \x7d,\n  \"label\": \x7b \"text\": \"connects\", \"fontSize\": 14 \x7d\n\x7d\n\n## RULES TO PREVENT HALLUCINATIONS\n\n1. ONLY use element IDs that exist in the current board state when referencing existing elements\n2. NEVER invent element IDs or properties that aren\x27t in the board state\n3. If referencing an element by description (e.g., \"the red box\"), find it in board state by matching type/color/label\n4. If element not found, return: \x7b\"action\": \"error\", \"message\": \"Element not found\"\x7d\n5. When updating, include ALL existing properties plus changes - don\x27t omit properties\n6. Use only these types: \"rectangle\", \"ellipse\", \"diamond\", \"text\", \"arrow\"\n7. Colors must be hex format: \"#rrggbb\" or \"transparent\"\n8. Numbers must be valid numbers, not strings\n\n## POSITIONING\n- Empty board: start at x:100-300, y:100-300\n- Existing elements: place relative to them, spacing 50-100px\n- Arrows: calculate position from source to target element centers\n\n## COLORS\n- Red: \"#ffc9c9\" (light), \"#e03131\" (dark)\n- Blue: \"#a5d8ff\" (light), \"#1971c2\" (dark)\n- Green: \"#d8f5a2\" (light), \"#2f9e44\" (dark)\n- Yellow: \"#fff3bf\" (light), \"#f08c00\" (dark)\n- Default: \"#1e1e1e\" (stroke), \"transparent\" (fill)\n\n## SPEECH HANDLING\n- Ignore filler words: \"um\", \"uh\", \"like\"\n- Handle corrections: \"no wait\" = use corrected version\n- \"box\" = rectangle, \"circle\" = ellipse\n- Infer missing details from context\n\n## EXAMPLES\n\n### Example 1: Add Elements\nInstruction: \"Create a red rectangle with text \x27Start\x27 and a blue circle next to it\"\nBoard: []\nResponse:\n\x7b\"action\":\"add\",\"elements\":[\x7b\"type\":\"rectangle\",\"id\":\"rect-1\",\"x\":100,\"y\":200,\"width\":120,\"height\":80,\"backgroundColor\":\"#ffc9c9\",\"strokeColor\":\"#e03131\",\"strokeWidth\":2,\"label\":\x7b\"text\":\"Start\",\"fontSize\":18\x7d\x7d,\x7b\"type\":\"ellipse\",\"id\":\"circle-1\",\"x\":250,\"y\":200,\"width\":100,\"height\":100,\"backgroundColor\":\"#a5d8ff\",\"strokeColor\":\"#1971c2\",\"strokeWidth\":2\x7d]\x7d\n\n### Example 2: Connect Elements\nInstruction: \"Connect user box to database\"\nBoard: [\x7b\"type\":\"rectangle\",\"id\":\"user-box\",\"x\":100,\"y\":200,\"width\":120,\"height\":80,\"label\":\x7b\"text\":\"User\"\x7d\x7d,\x7b\"type\":\"ellipse\",\"id\":\"database\",\"x\":400,\"y\":200,\"width\":100,\"height\":80,\"label\":\x7b\"text\":\"Database\"\x7d\x7d]\nResponse:\n\x7b\"action\":\"add\",\"elements\":[\x7b\"type\":\"arrow\",\"x\":220,\"y\":240,\"width\":180,\"height\":0,\"strokeColor\":\"#1e1e1e\",\"strokeWidth\":2,\"start\":\x7b\"id\":\"user-box\"\x7d,\"end\":\x7b\"id\":\"database\"\x7d\x7d]\x7d\n\n### Example 3: Update Element\nInstruction: \"Change the process box color to yellow\"\nBoard: [\x7b\"type\":\"rectangle\",\"id\":\"process-box\",\"x\":200,\"y\":150,\"width\":140,\"height\":80,\"backgroundColor\":\"#a5d8ff\",\"label\":\x7b\"text\":\"Process\"\x7d\x7d]\nResponse:\n\x7b\"action\":\"update\",\"elements\":[\x7b\"type\":\"rectangle\",\"id\":\"process-box\",\"x\":200,\"y\":150,\"width\":140,\"height\":80,\"backgroundColor\":\"#fff3bf\",\"strokeColor\":\"#f08c00\",\"label\":\x7b\"text\":\"Process\"\x7d\x7d]\x7d\n\n### Example 4: Delete Element\nInstruction: \"Remove the error box\"\nBoard: [\x7b\"type\":\"rectangle\",\"id\":\"error-box\",\"x\":350,\"y\":130,\"width\":150,\"height\":80,\"label\":\x7b\"text\":\"Error\"\x7d\x7d,\x7b\"type\":\"rectangle\",\"id\":\"main\",\"x\":100,\"y\":100,\"width\":200,\"height\":150\x7d]\nResponse:\n\x7b\"action\":\"delete\",\"delete_ids\":[\"error-box\"]\x7d\n\n### Example 5: Add Text\nInstruction: \"Add title \x27Diagram\x27 at top\"\nBoard: [\x7b\"type\":\"rectangle\",\"id\":\"box-1\",\"x\":150,\"y\":200,\"width\":150,\"height\":100\x7d]\nResponse:\n\x7b\"action\":\"add\",\"elements\":[\x7b\"type\":\"text\",\"id\":\"title-1\",\"x\":100,\"y\":50,\"text\":\"Diagram\",\"fontSize\":28,\"strokeColor\":\"#1e1e1e\"\x7d]\x7d\n\n### Example 6: Reference by Description\nInstruction: \"Connect green box to purple circle\"\nBoard: [\x7b\"type\":\"rectangle\",\"id\":\"rect-green\",\"x\":100,\"y\":200,\"width\":120,\"height\":80,\"backgroundColor\":\"#d8f5a2\"\x7d,\x7b\"type\":\"ellipse\",\"id\":\"circle-purple\",\"x\":350,\"y\":200,\"width\":100,\"height\":80,\"backgroundColor\":\"#d0bfff\"\x7d]\nResponse:\n\x7b\"action\":\"add\",\"elements\":[\x7b\"type\":\"arrow\",\"x\":220,\"y\":240,\"width\":130,\"height\":0,\"strokeColor\":\"#1e1e1e\",\"strokeWidth\":2,\"start\":\x7b\"id\":\"rect-green\"\x7d,\"end\":\x7b\"id\":\"circle-purple\"\x7d\x7d]\x7d\n\n## FINAL REMINDERS\n- Output ONLY valid JSON, no other text\n- Match element IDs exactly from board state\n- Include all required fields for each element type\n- Use valid JSON syntax (quotes, commas, brackets)\n- If unsure, return error action instead of guessing"

/-- The system prompt constant `WhiteboardSystemPrompt` of package
`pkg/llm/prompts`, reproduced verbatim from the source (split in two parts
so short proofs can bound its length without evaluating all of it). -/
def WhiteboardSystemPrompt : String := sysPromptHead ++ sysPromptRest

/-- The function `BuildWhiteboardPrompt` of package `pkg/llm/prompts`:
builds the user-facing prompt from the instruction and the board state. -/
def BuildWhiteboardPrompt (userInstruction currentBoardState : String) : String :=
  "## CURRENT BOARD STATE\n" ++ currentBoardState ++
  "\n\n## USER INSTRUCTION\n" ++ userInstruction ++
  "\n\n## YOUR RESPONSE (JSON ONLY, NO OTHER TEXT):"

/-! ### JSON validity, modeling `encoding/json.Unmarshal` into a `json.RawMessage`

Go validates the input with its scanner: one JSON value (RFC 8259 grammar),
surrounded by optional JSON whitespace, and nothing else. -/

/-- JSON whitespace as accepted by the Go scanner: space, tab, newline,
carriage return. -/
def isJsonWS (c : Char) : Bool :=
  c = ' ' || c = '\t' || c = '\n' || c = '\r'

/-- Drop leading JSON whitespace. -/
def skipJsonWS : List Char → List Char
  | [] => []
  | c :: cs => if isJsonWS c then skipJsonWS cs else c :: cs

/-- Hexadecimal digit, for the \\uXXXX string escape. -/
def isHexDigitChar (c : Char) : Bool :=
  c.isDigit || ('a' ≤ c && c ≤ 'f') || ('A' ≤ c && c ≤ 'F')

/-- Consume the expected literal characters, as for null, true, false. -/
def expectChars : List Char → List Char → Option (List Char)
  | [], cs => some cs
  | _ :: _, [] => none
  | e :: es, c :: cs => if c = e then expectChars es cs else none

/-- Consume the body of a JSON string after the opening quote: any character
at or above 0x20 other than the quote and the backslash, or a valid escape;
return the input after the closing quote. -/
def parseStringTail : List Char → Option (List Char)
  | [] => none
  | c :: cs =>
    if c = '"' then some cs
    else if c = '\\' then
      match cs with
      | [] => none
      | e :: cs₂ =>
        if e = '"' || e = '\\' || e = '/' || e = 'b' || e = 'f' || e = 'n' ||
            e = 'r' || e = 't' then
          parseStringTail cs₂
        else if e = 'u' then
          match cs₂ with
          | h₁ :: h₂ :: h₃ :: h₄ :: cs₃ =>
            if isHexDigitChar h₁ && isHexDigitChar h₂ && isHexDigitChar h₃ &&
                isHexDigitChar h₄ then
              parseStringTail cs₃
            else none
          | _ => none
        else none
    else if c.toNat < 32 then none
    else parseStringTail cs

/-- Drop leading decimal digits. -/
def dropDigits : List Char → List Char
  | [] => []
  | c :: cs => if c.isDigit then dropDigits cs else c :: cs

/-- Consume an optional exponent part of a JSON number. -/
def parseExpPart : List Char → Option (List Char)
  | [] => some []
  | c :: cs =>
    if c = 'e' || c = 'E' then
      match cs with
      | [] => none
      | s :: cs₂ =>
        if s = '+' || s = '-' then
          match cs₂ with
          | [] => none
          | d :: _ => if d.isDigit then some (dropDigits cs₂) else none
        else if s.isDigit then some (dropDigits cs)
        else none
    else some (c :: cs)

/-- Consume an optional fraction part, then the exponent part. -/
def parseFracPart (cs : List Char) : Option (List Char) :=
  match cs with
  | '.' :: r =>
    match r with
    | [] => none
    | d :: _ => if d.isDigit then parseExpPart (dropDigits r) else none
  | _ => parseExpPart cs

/-- Consume the integer part of a JSON number, after an optional minus sign:
a single 0, or a nonzero digit followed by digits; then fraction and
exponent. -/
def parseNumberTail : List Char → Option (List Char)
  | [] => none
  | c :: cs =>
    if c = '0' then parseFracPart cs
    else if c.isDigit then parseFracPart (dropDigits cs)
    else none

mutual

/-- Consume one JSON value; `fuel` bounds the recursion depth. -/
def parseJsonValue : Nat → List Char → Option (List Char)
  | 0, _ => none
  | Nat.succ fuel, cs =>
    match cs with
    | [] => none
    | c :: rest =>
      if c = 'n' then expectChars ['u', 'l', 'l'] rest
      else if c = 't' then expectChars ['r', 'u', 'e'] rest
      else if c = 'f' then expectChars ['a', 'l', 's', 'e'] rest
      else if c = '"' then parseStringTail rest
      else if c = '-' then parseNumberTail rest
      else if c.isDigit then parseNumberTail (c :: rest)
      else if c = '[' then
        match skipJsonWS rest with
        | ']' :: r => some r
        | cs₂ => parseJsonArrayItems fuel cs₂
      else if c = '\x7b' then
        match skipJsonWS rest with
        | '\x7d' :: r => some r
        | cs₂ => parseJsonObjectItems fuel cs₂
      else none

/-- Consume the comma-separated items of a nonempty JSON array, and the
closing bracket. -/
def parseJsonArrayItems : Nat → List Char → Option (List Char)
  | 0, _ => none
  | Nat.succ fuel, cs =>
    match parseJsonValue fuel cs with
    | none => none
    | some rest =>
      match skipJsonWS rest with
      | ']' :: r => some r
      | ',' :: r => parseJsonArrayItems fuel (skipJsonWS r)
      | _ => none

/-- Consume the members of a nonempty JSON object, and the closing brace. -/
def parseJsonObjectItems : Nat → List Char → Option (List Char)
  | 0, _ => none
  | Nat.succ fuel, cs =>
    match cs with
    | '"' :: rest =>
      match parseStringTail rest with
      | none => none
      | some r₁ =>
        match skipJsonWS r₁ with
        | ':' :: r₂ =>
          match parseJsonValue fuel (skipJsonWS r₂) with
          | none => none
          | some r₃ =>
            match skipJsonWS r₃ with
            | '\x7d' :: r₄ => some r₄
            | ',' :: r₄ => parseJsonObjectItems fuel (skipJsonWS r₄)
            | _ => none
        | _ => none
    | _ => none

end

/-- Go `json.Unmarshal(data, &rawMessage)` succeeds exactly when the input is
one valid JSON value with only whitespace around it. -/
def jsonValid (s : String) : Bool :=
  match parseJsonValue (4 * s.length + 8) (skipJsonWS s.toList) with
  | some rest => (skipJsonWS rest).isEmpty
  | none => false

/-! ### The pre-queue phase of `GenerateResponse`

`OllamaLLMClient.GenerateResponse` and `NvidiaLLMClient.GenerateResponse`
share this logic verbatim: reject a blank instruction, normalize the board
state, build the user prompt, and pair it with the system prompt. Only
afterwards is a request enqueued for the worker. -/

/-- The board-state normalization inside `GenerateResponse`: an empty string
becomes the empty-array literal, a string rejected by `json.Unmarshal`
becomes the empty-array literal, and valid JSON passes through unchanged. -/
def normalizeBoardState (boardState : String) : String :=
  if boardState = "" then "[]"
  else if jsonValid boardState then boardState
  else "[]"

/-- Everything `GenerateResponse` does before touching the request queue:
either the EmptyInput rejection, or the (userPrompt, systemPrompt) pair that
is placed into the queued request. -/
def generateResponsePrepare (prompt boardState : String) :
    Except String (String × String) :=
  if goTrimSpace prompt = "" then Except.error "empty text provided"
  else
    Except.ok
      (BuildWhiteboardPrompt prompt (normalizeBoardState boardState),
        WhiteboardSystemPrompt)

/-! ### Provider synchronous call paths -/

/-- The result record built by both `generateResponseSync` paths; the
`Timestamp` field(wall clock) is omitted, no claim refers to it. -/
structure LLMResponse where
  response : String
deriving DecidableEq

/-- Outcome of `c.client.Generate` in `OllamaLLMClient.generateResponseSync`:
either a transport/API error or the accumulated streamed response text. -/
def OllamaTransportResult : Type := Except String String

/-- One choice of the Nvidia chat completion body. -/
structure NvidiaChoice where
  content : String
deriving DecidableEq

/-- The decoded Nvidia chat completion body. -/
structure NvidiaChatResponse where
  choices : List NvidiaChoice
deriving DecidableEq

/-- Outcome of `c.httpClient.Do` in `NvidiaLLMClient.generateResponseSync`:
a transport error, or a status code with the body decode result (`none`
when the body is not decodable into `nvidiaChatResponse`). -/
inductive NvidiaHttpOutcome where
  | transportError (msg : String)
  | response (status : Nat) (decoded : Option NvidiaChatResponse)

/-- `OllamaLLMClient.generateResponseSync` from the transport outcome on:
an error is wrapped; otherwise the accumulated text is trimmed and returned.
There is no status or empty-completion check on this path. -/
def ollamaGenerateResponseSync (t : Except String String) :
    Except String LLMResponse :=
  match t with
  | Except.error m => Except.error ("ollama generate error: " ++ m)
  | Except.ok s => Except.ok ⟨goTrimSpace s⟩

/-- `NvidiaLLMClient.generateResponseSync` from the HTTP outcome on:
transport errors, non-2xx statuses, undecodable bodies, empty choice lists
and empty content all fail; otherwise the trimmed content is returned. -/
def nvidiaGenerateResponseSync (o : NvidiaHttpOutcome) :
    Except String LLMResponse :=
  match o with
  | NvidiaHttpOutcome.transportError m =>
    Except.error ("nvidia api request error: " ++ m)
  | NvidiaHttpOutcome.response status decoded =>
    if status < 200 || 300 ≤ status then
      Except.error ("nvidia api error: status " ++ toString status)
    else
      match decoded with
      | none => Except.error "failed to decode nvidia response"
      | some body =>
        match body.choices with
        | [] => Except.error "nvidia api returned empty response"
        | c :: _ =>
          if c.content = "" then
            Except.error "nvidia api returned empty response"
          else Except.ok ⟨goTrimSpace c.content⟩

/-- True exactly on the error constructor of an `Except`. -/
def exceptFailed {ε α : Type} : Except ε α → Bool
  | Except.error _ => true
  | Except.ok _ => false

/-! ### Constructors -/

/-- The configuration held by a successfully constructed
`NvidiaLLMClient`. -/
structure NvidiaClient where
  baseURL : String
  model : String
  apiKey : String
deriving DecidableEq

/-- `NewNvidiaLLMClient`: a blank API key or a blank model name fails before
the worker is started; a blank base URL falls back to the hosted default. -/
def newNvidiaLLMClient (baseURL model apiKey : String) :
    Except String NvidiaClient :=
  if goTrimSpace apiKey = "" then Except.error "nvidia api key is required"
  else if goTrimSpace model = "" then Except.error "nvidia model is required"
  else
    Except.ok
      ⟨if goTrimSpace baseURL = "" then
          "https://integrate.api.nvidia.com/v1/chat/completions"
        else baseURL,
        model, apiKey⟩

/-- The configuration held by a successfully constructed
`OllamaLLMClient`. -/
structure OllamaClient where
  model : String
deriving DecidableEq

/-- `NewOllamaLLMClient`: the only failure is `api.ClientFromEnvironment`
reporting an error (passed here as `envClient`); neither the host argument
nor the model name is inspected. -/
def newOllamaLLMClient (envClient : Except String Unit)
    (ollamaHost model : String) : Except String OllamaClient :=
  match envClient with
  | Except.error m => Except.error ("failed to create Ollama client: " ++ m)
  | Except.ok _ => Except.ok ⟨model⟩

/-! ### Close

`Close` on either client runs `c.closeOnce.Do`, which cancels the client
context and closes the request channel the first time only, and always
returns nil. -/

/-- The observable effects of `Close`: whether the `sync.Once` has fired and
how many times `cancel` and `close(requestChan)` have run. -/
structure CloseOnceState where
  onceDone : Bool
  cancelCalls : Nat
  chanCloseCalls : Nat
deriving DecidableEq

/-- One call of `Close` on either client: the body runs only if the
`sync.Once` has not fired; the return value is always nil (`none`). -/
def closeClient (s : CloseOnceState) : CloseOnceState × Option String :=
  if s.onceDone then (s, none)
  else (⟨true, s.cancelCalls + 1, s.chanCloseCalls + 1⟩, none)

/-- `n` successive calls of `Close`. -/
def closeClientIter : Nat → CloseOnceState → CloseOnceState
  | 0, s => s
  | Nat.succ n, s => closeClientIter n (closeClient s).1

/-! ### The dispatcher worker as a labeled transition system

`OllamaLLMClient` and `NvidiaLLMClient` share this structure verbatim: a
buffered FIFO channel of capacity 10, one background worker started by the
constructor that pulls one request, runs `generateResponseSync` to
completion, delivers the result, and only then pulls the next, plus a
cancelable client context that `Close` fires. Requests are identified by
the order in which their channel send completes (Go buffered channels and
their waiting senders are FIFO). `callStart n`/`callEnd n` mark the worker
entering and leaving the provider call for request `n`; `finished` lists
the requests whose result or error has been delivered back to the caller
channel. After `Close` fires the worker may still drain requests (the
`select` picks among ready cases) or exit via the done context once it is
idle. -/

structure DispatchState where
  nextId : Nat
  queue : List Nat
  busy : Option Nat
  finished : List Nat
  closed : Bool
  workerAlive : Bool
deriving DecidableEq

/-- The dispatcher state right after the constructor returned. -/
def initDispatch : DispatchState := ⟨0, [], none, [], false, true⟩

inductive DispatchEv where
  | submit (n : Nat)
  | callStart (n : Nat)
  | callEnd (n : Nat)
  | close
  | workerExit
deriving DecidableEq

/-- One transition of a dispatcher client. -/
inductive DStep : DispatchState → DispatchEv → DispatchState → Prop where
  | submit (s : DispatchState) (h₁ : s.closed = false)
      (h₂ : s.queue.length < 10) :
      DStep s (DispatchEv.submit s.nextId)
        ⟨s.nextId + 1, s.queue ++ [s.nextId], s.busy, s.finished, s.closed,
          s.workerAlive⟩
  | callStart (s : DispatchState) (n : Nat) (rest : List Nat)
      (hw : s.workerAlive = true) (hb : s.busy = none)
      (hq : s.queue = n :: rest) :
      DStep s (DispatchEv.callStart n)
        ⟨s.nextId, rest, some n, s.finished, s.closed, s.workerAlive⟩
  | callEnd (s : DispatchState) (n : Nat) (hb : s.busy = some n) :
      DStep s (DispatchEv.callEnd n)
        ⟨s.nextId, s.queue, none, s.finished ++ [n], s.closed, s.workerAlive⟩
  | close (s : DispatchState) :
      DStep s DispatchEv.close
        ⟨s.nextId, s.queue, s.busy, s.finished, true, s.workerAlive⟩
  | workerExit (s : DispatchState) (hc : s.closed = true) (hb : s.busy = none)
      (hw : s.workerAlive = true) :
      DStep s DispatchEv.workerExit
        ⟨s.nextId, s.queue, s.busy, s.finished, s.closed, false⟩

/-- A finite run of the dispatcher, recorded with its event list. -/
inductive DTrace : DispatchState → List DispatchEv → DispatchState → Prop where
  | nil (s : DispatchState) : DTrace s [] s
  | snoc {s₁ s₂ s₃ : DispatchState} {evs : List DispatchEv} {e : DispatchEv} :
      DTrace s₁ evs s₂ → DStep s₂ e s₃ → DTrace s₁ (evs ++ [e]) s₃

/-- The provider-call events of a run, in order. -/
def providerCallEvents (evs : List DispatchEv) : List DispatchEv :=
  evs.filter fun e =>
    match e with
    | DispatchEv.callStart _ => true
    | DispatchEv.callEnd _ => true
    | _ => false

/-- The submitted request ids of a run, in submission order. -/
def submittedIds (evs : List DispatchEv) : List Nat :=
  evs.filterMap fun e =>
    match e with
    | DispatchEv.submit n => some n
    | _ => none

/-- The provider-call events of a run in which the listed requests were each
begun and run to completion, in order. -/
def completedPairs (l : List Nat) : List DispatchEv :=
  l.flatMap fun n => [DispatchEv.callStart n, DispatchEv.callEnd n]

/-- The begin event of the provider call currently in flight, if any. -/
def pendingCall : Option Nat → List DispatchEv
  | some n => [DispatchEv.callStart n]
  | none => []

/-- Request `n` is never fulfilled in any continuation of the run: no
extension of the state ever delivers its result or error. -/
def neverCompleted (s : DispatchState) (n : Nat) : Prop :=
  ∀ evs s', DTrace s evs s' → n ∉ s'.finished

/-- The state reached by submitting request 0, closing the client, and the
worker then exiting through the canceled context without draining it. -/
def stuckDispatchState : DispatchState := ⟨1, [0], none, [], true, false⟩

/-! ### Whiteboard change detection (`whiteboard.tsx`)

JavaScript numbers are modeled as rationals; the fields not inspected by
`elementsHaveChanged` are represented by `strokeColor`, `backgroundColor`
and `labelText`. -/

structure ExcalidrawElement where
  id : String
  version : Nat
  isDeleted : Bool
  x : ℚ
  y : ℚ
  width : ℚ
  height : ℚ
  strokeColor : String
  backgroundColor : String
  labelText : String
deriving DecidableEq

/-- The epsilon of the position/size comparison in `elementsHaveChanged`. -/
def changeEps : ℚ := 1 / 100

/-- The per-element comparison of the loop body of `elementsHaveChanged`:
version, tombstone flag, then position and size beyond the epsilon. -/
def elementDiffers (prevEl newEl : ExcalidrawElement) : Bool :=
  (prevEl.version != newEl.version) ||
  (prevEl.isDeleted != newEl.isDeleted) ||
  (decide (changeEps < |prevEl.x - newEl.x|) ||
    decide (changeEps < |prevEl.y - newEl.y|)) ||
  (decide (changeEps < |prevEl.width - newEl.width|) ||
    decide (changeEps < |prevEl.height - newEl.height|))

/-- Insertion into a JavaScript `Map`: an existing key keeps its position and
gets the new value, a new key is appended. -/
def jsMapInsert (m : List (String × ExcalidrawElement))
    (e : ExcalidrawElement) : List (String × ExcalidrawElement) :=
  if m.any (fun p => p.1 = e.id) then
    m.map fun p => if p.1 = e.id then (p.1, e) else p
  else m ++ [(e.id, e)]

/-- `new Map(elements.map((el) => [el.id, el]))`. -/
def jsMapOfElements (l : List ExcalidrawElement) :
    List (String × ExcalidrawElement) :=
  l.foldl jsMapInsert []

/-- `elementsHaveChanged` from `whiteboard.tsx`: length check, map-size
check, then the per-id comparison loop over the new map (an id missing from
the previous map returns true immediately; the loop breaks at the first
difference). -/
def elementsHaveChanged (prevElements newElements : List ExcalidrawElement) :
    Bool :=
  if prevElements.length ≠ newElements.length then true
  else
    let prevMap := jsMapOfElements prevElements
    let newMap := jsMapOfElements newElements
    if prevMap.length ≠ newMap.length then true
    else
      newMap.any fun entry =>
        match prevMap.lookup entry.1 with
        | none => true
        | some prevEl => elementDiffers prevEl entry.2

/-- The mutable ref the component keeps between `onChange` deliveries. -/
structure WhiteboardRefState where
  previousElements : List ExcalidrawElement
deriving DecidableEq

/-- `handleChange`: compares the new elements against the previous ref,
stores (copies of) the new elements, and the boolean records whether
`notifyStateChange` — the debounced notifier — is invoked. -/
def handleChange (st : WhiteboardRefState)
    (updatedElements : List ExcalidrawElement) : WhiteboardRefState × Bool :=
  (⟨updatedElements⟩, elementsHaveChanged st.previousElements updatedElements)

/-! ### The debounced callback (`useDebouncedCallback`)

The hook keeps one pending timer and the latest arguments. A call stores
its arguments, clears any pending timer and arms a fresh one for `delay`
milliseconds; when a timer reaches its deadline with no further call having
replaced it, the wrapped callback fires with the stored arguments. The run
function below replays a time-ordered call schedule against this state
machine and returns the downstream deliveries `(time, arguments)` in order;
a timer whose deadline is at or before the next call time fires before that
call is processed, and a timer still pending after the last call fires at
its deadline. -/

def debounceRun {α : Type} (delay : Nat) :
    List (Nat × α) → Option (Nat × α) → List (Nat × α)
  | [], st =>
    match st with
    | none => []
    | some d => [d]
  | (t, a) :: rest, st =>
    match st with
    | none => debounceRun delay rest (some (t + delay, a))
    | some (d, pa) =>
      if d ≤ t then (d, pa) :: debounceRun delay rest (some (t + delay, a))
      else debounceRun delay rest (some (t + delay, a))

/-- A call schedule is a rapid burst: times are nondecreasing and each call
arrives strictly less than `delay` after its predecessor. -/
def rapidBurst (delay : Nat) : List (Nat × α) → Bool
  | [] => true
  | [_] => true
  | (t₁, _) :: (t₂, a₂) :: rest =>
    decide (t₁ ≤ t₂) && decide (t₂ < t₁ + delay) &&
      rapidBurst delay ((t₂, a₂) :: rest)

/-! ### Spec-side predicates

These definitions follow the wording of the specification (not the source)
and exist to be compared against the embedded source definitions. -/

/-- Spec wording for the change predicate: the element counts differ, some
id present in the new array is absent from the previous one, or some shared
id differs in version, in the tombstone flag, or in position/size beyond
the epsilon. -/
def specElementsChanged (prev next : List ExcalidrawElement) : Bool :=
  (prev.length != next.length) ||
  next.any (fun n => !(prev.any fun p => p.id == n.id)) ||
  next.any (fun n => prev.any fun p => (p.id == n.id) && elementDiffers p n)

/-- Spec wording for the failure condition of the hosted provider call:
transport failure, non-success status, undecodable body, or an
empty/missing completion payload. -/
def nvidiaSyncFails (o : NvidiaHttpOutcome) : Prop :=
  match o with
  | NvidiaHttpOutcome.transportError _ => True
  | NvidiaHttpOutcome.response status decoded =>
    status < 200 ∨ 300 ≤ status ∨
    match decoded with
    | none => True
    | some body =>
      match body.choices with
      | [] => True
      | c :: _ => c.content = ""

/-- `needle` occurs verbatim inside `haystack`. -/
def embedsVerbatim (needle haystack : String) : Prop :=
  ∃ pre post, haystack = pre ++ needle ++ post

/-- Sample element used in concrete checks. -/
def elA : ExcalidrawElement :=
  ⟨"a", 1, false, 0, 0, 10, 10, "#1e1e1e", "transparent", ""⟩

/-- Second sample element, distinct id and position. -/
def elB : ExcalidrawElement :=
  ⟨"b", 1, false, 50, 0, 10, 10, "#1e1e1e", "transparent", ""⟩

/-- Variant of `elA` that moved within the epsilon and was restyled: every
field compared by `elementsHaveChanged` agrees with `elA` to within the
epsilon, the styling fields differ. -/
def elA' : ExcalidrawElement :=
  ⟨"a", 1, false, 1 / 200, 0, 10, 10, "#e03131", "#ffc9c9", "Start"⟩

/-- The dispatcher run invariant: the provider-call events of the run are
the completed begin/end pairs of `finished` in order, followed by at most
one unfinished begin; the submitted ids are 0,1,.. in order; and every
submitted id is in exactly one of `finished`, the in-flight slot, or the
queue, preserving submission order. -/
def DInv (evs : List DispatchEv) (s : DispatchState) : Prop :=
  providerCallEvents evs = completedPairs s.finished ++ pendingCall s.busy ∧
  submittedIds evs = List.range s.nextId ∧
  s.finished ++ s.busy.toList ++ s.queue = List.range s.nextId

/-- Spec wording for two pairwise-corresponding elements that agree on every
field `elementsHaveChanged` inspects, to within the epsilon; all other
fields are unconstrained. -/
def elementClose (p n : ExcalidrawElement) : Prop :=
  p.id = n.id ∧ p.version = n.version ∧ p.isDeleted = n.isDeleted ∧
  |p.x - n.x| ≤ changeEps ∧ |p.y - n.y| ≤ changeEps ∧
  |p.width - n.width| ≤ changeEps ∧ |p.height - n.height| ≤ changeEps

/-! ## Theorems -/

/-- C2: on both provider variants, `GenerateResponse` returns the EmptyInput
error, before any request is enqueued and without the provider being
invoked, exactly when the instruction is empty or whitespace-only. The
function models everything `GenerateResponse` does before the enqueue, so an
error here means nothing was queued and the provider never ran. -/
theorem generateResponse_rejects_blank_instruction :
    ∀ instruction boardState : String,
      generateResponsePrepare instruction boardState =
          Except.error "empty text provided" ↔
        goTrimSpace instruction = "" := by
  intro i b
  unfold generateResponsePrepare
  by_cases h : goTrimSpace i = "" <;> simp [h]

/-- C3: the prompt handed to the provider embeds the empty-array literal in
place of an empty or invalid board state, and embeds a valid-JSON board
state unchanged. -/
theorem boardState_normalized_before_embedding :
    ∀ instruction boardState : String, goTrimSpace instruction ≠ "" →
      ((boardState = "" ∨ jsonValid boardState = false) →
        generateResponsePrepare instruction boardState =
          Except.ok
            (BuildWhiteboardPrompt instruction "[]", WhiteboardSystemPrompt)) ∧
      (jsonValid boardState = true →
        generateResponsePrepare instruction boardState =
          Except.ok
            (BuildWhiteboardPrompt instruction boardState,
              WhiteboardSystemPrompt)) := by
  intro i b hi
  constructor
  · rintro (rfl | hb) <;>
      simp [generateResponsePrepare, hi, normalizeBoardState, *]
  · intro hb
    have hbne : b ≠ "" := by
      rintro rfl
      exact absurd hb (by decide)
    simp [generateResponsePrepare, hi, normalizeBoardState, hbne, hb]

/-- Witness for C3 at concrete inputs: an invalid board state is replaced by
the empty-array literal, a valid one is embedded unchanged. -/
theorem boardState_normalized_witness :
    generateResponsePrepare "draw a box" "not json" =
        Except.ok
          (BuildWhiteboardPrompt "draw a box" "[]", WhiteboardSystemPrompt) ∧
      generateResponsePrepare "draw a box" "[1, 2]" =
        Except.ok
          (BuildWhiteboardPrompt "draw a box" "[1, 2]",
            WhiteboardSystemPrompt) :=
  ⟨(boardState_normalized_before_embedding "draw a box" "not json"
      (by decide)).1 (Or.inr (by decide)),
    (boardState_normalized_before_embedding "draw a box" "[1, 2]"
      (by decide)).2 (by decide)⟩

/-- A string embedded verbatim is no longer than the embedding string. -/
theorem embedsVerbatim_length_le {needle haystack : String}
    (h : embedsVerbatim needle haystack) : needle.length ≤ haystack.length := by
  obtain ⟨pre, post, rfl⟩ := h
  simp [String.length_append]
  omega

set_option maxRecDepth 8000 in
/-- C4 counterexample: the text produced by `BuildWhiteboardPrompt` does not
embed the fixed protocol preamble; at the concrete input below the produced
text is shorter than the preamble. -/
theorem buildWhiteboardPrompt_omits_preamble :
    ¬ embedsVerbatim WhiteboardSystemPrompt (BuildWhiteboardPrompt "a" "[]") := by
  intro h
  have hle := embedsVerbatim_length_le h
  have h₁ : (BuildWhiteboardPrompt "a" "[]").length < 280 := by decide
  have h₂ : (280 : Nat) ≤ WhiteboardSystemPrompt.length := by
    have hs : WhiteboardSystemPrompt.length =
        sysPromptHead.length + sysPromptRest.length := by
      simp [WhiteboardSystemPrompt, String.length_append]
    have h0 : sysPromptHead.length = 280 := by decide
    omega
  omega

/-- C4 amended: `BuildWhiteboardPrompt` produces exactly the literal section
CURRENT BOARD STATE with the scene JSON, the literal section USER
INSTRUCTION with the raw instruction, and the closing instruction to answer
with JSON only; the fixed protocol preamble is not part of this text but is
carried separately, as the system prompt of every prepared request. -/
theorem buildWhiteboardPrompt_sections :
    ∀ instruction scene : String,
      BuildWhiteboardPrompt instruction scene =
          "## CURRENT BOARD STATE\n" ++ scene ++
            "\n\n## USER INSTRUCTION\n" ++ instruction ++
            "\n\n## YOUR RESPONSE (JSON ONLY, NO OTHER TEXT):" ∧
        ∀ boardState : String,
          goTrimSpace instruction = "" ∨
            ∃ userPrompt,
              generateResponsePrepare instruction boardState =
                Except.ok (userPrompt, WhiteboardSystemPrompt) := by
  intro i s
  refine ⟨rfl, fun b => ?_⟩
  by_cases h : goTrimSpace i = ""
  · exact Or.inl h
  · refine Or.inr ⟨BuildWhiteboardPrompt i (normalizeBoardState b), ?_⟩
    simp [generateResponsePrepare, h]

/-- C5 counterexample: the local (Ollama) sync path returns a successful
response with empty completion text when the provider streams no text at
all, and the hosted (Nvidia) sync path returns a successful response whose
text is empty after trimming when the completion content is whitespace. -/
theorem ollamaSync_empty_completion_succeeds :
    ollamaGenerateResponseSync (Except.ok "") = Except.ok ⟨""⟩ ∧
      nvidiaGenerateResponseSync
          (NvidiaHttpOutcome.response 200 (some ⟨[⟨" "⟩]⟩)) =
        Except.ok ⟨""⟩ := by
  constructor <;> rfl

/-- C5 amended: the hosted (Nvidia) sync path fails exactly on transport
failure, non-success status, an undecodable body, or an empty/missing
completion payload; the local (Ollama) sync path fails exactly on transport
failure and performs no status or empty-completion check of its own. -/
theorem providerSync_failure_conditions :
    (∀ o : NvidiaHttpOutcome,
        exceptFailed (nvidiaGenerateResponseSync o) = true ↔
          nvidiaSyncFails o) ∧
      ∀ t : Except String String,
        exceptFailed (ollamaGenerateResponseSync t) = true ↔
          exceptFailed t = true := by
  constructor
  · intro o
    cases o with
    | transportError m =>
      simp [nvidiaGenerateResponseSync, exceptFailed, nvidiaSyncFails]
    | response status decoded =>
      simp only [nvidiaGenerateResponseSync, nvidiaSyncFails]
      by_cases h₁ : status < 200
      · simp [h₁, exceptFailed]
      · by_cases h₂ : 300 ≤ status
        · simp [h₁, h₂, exceptFailed]
        · cases decoded with
          | none => simp [h₁, h₂, exceptFailed]
          | some body =>
            cases hb : body.choices with
            | nil => simp [h₁, h₂, hb, exceptFailed]
            | cons c tail =>
              by_cases hc : c.content = "" <;>
                simp [h₁, h₂, hb, hc, exceptFailed]
  · intro t
    cases t <;> simp [ollamaGenerateResponseSync, exceptFailed]

/-- C6 counterexample: the Ollama constructor succeeds with a blank model
name (blank or whitespace-only), so a missing model name does not fail for
the local variant. -/
theorem ollama_constructor_accepts_blank_model :
    newOllamaLLMClient (Except.ok ()) "http://localhost:11434" "" =
        Except.ok ⟨""⟩ ∧
      newOllamaLLMClient (Except.ok ()) "http://localhost:11434" "   " =
        Except.ok ⟨"   "⟩ :=
  ⟨rfl, rfl⟩

/-- C6 amended: the hosted (Nvidia) constructor fails before starting a
worker when the API key or the model name is blank; the local (Ollama)
constructor checks neither host nor model and fails exactly when the
environment client creation fails. -/
theorem constructor_config_checks :
    (∀ baseURL model apiKey, goTrimSpace apiKey = "" →
        newNvidiaLLMClient baseURL model apiKey =
          Except.error "nvidia api key is required") ∧
      (∀ baseURL model apiKey, goTrimSpace apiKey ≠ "" →
        goTrimSpace model = "" →
          newNvidiaLLMClient baseURL model apiKey =
            Except.error "nvidia model is required") ∧
      ∀ envClient host model,
        exceptFailed (newOllamaLLMClient envClient host model) =
          exceptFailed envClient := by
  refine ⟨fun b m k hk => ?_, fun b m k hk hm => ?_, fun env h m => ?_⟩
  · simp [newNvidiaLLMClient, hk]
  · simp [newNvidiaLLMClient, hk, hm]
  · cases env <;> rfl

/-- Witness for C6 amended at concrete inputs. -/
theorem constructor_config_checks_witness :
    newNvidiaLLMClient "" "llama" " " =
        Except.error "nvidia api key is required" ∧
      newNvidiaLLMClient "" " " "key" =
        Except.error "nvidia model is required" ∧
      exceptFailed (newOllamaLLMClient (Except.error "no env") "h" "m") =
        exceptFailed (Except.error "no env" : Except String Unit) :=
  ⟨constructor_config_checks.1 "" "llama" " " (by decide),
    constructor_config_checks.2.1 "" " " "key" (by decide) (by decide),
    constructor_config_checks.2.2 (Except.error "no env") "h" "m"⟩

/-- Helper: replaying a rapid burst against a pending timer whose deadline
lies strictly after the first call time delivers exactly the last call, one
full delay after it. -/
theorem debounceRun_rapid_pending {α : Type} (delay : Nat) :
    ∀ (calls : List (Nat × α)) (d : Nat) (pa : α) (t : Nat) (a : α),
      rapidBurst delay calls = true →
      calls.getLast? = some (t, a) →
      (∀ t₁ a₁ rest, calls = (t₁, a₁) :: rest → t₁ < d) →
      debounceRun delay calls (some (d, pa)) = [(t + delay, a)] := by
  intro calls
  induction calls with
  | nil => intro d pa t a _ hlast _; simp at hlast
  | cons hd rest ih =>
    intro d pa t a hrapid hlast hfirst
    obtain ⟨t₁, a₁⟩ := hd
    have ht₁ : t₁ < d := hfirst t₁ a₁ rest rfl
    have hnle : ¬ d ≤ t₁ := Nat.not_le.mpr ht₁
    cases rest with
    | nil =>
      simp at hlast
      obtain ⟨rfl, rfl⟩ := hlast
      simp [debounceRun, hnle]
    | cons hd₂ rest₂ =>
      obtain ⟨t₂, a₂⟩ := hd₂
      simp only [rapidBurst, Bool.and_eq_true, decide_eq_true_eq] at hrapid
      obtain ⟨⟨h12, hgap⟩, hrapid₂⟩ := hrapid
      have hlast₂ : ((t₂, a₂) :: rest₂).getLast? = some (t, a) := by
        simpa [List.getLast?_cons_cons] using hlast
      simp only [debounceRun, hnle, if_false]
      exact ih (t₁ + delay) a₁ t a hrapid₂ hlast₂
        (fun t' a' rest' heq => by
          obtain ⟨h₁, -⟩ := Prod.mk.injEq .. ▸ (List.cons.injEq .. ▸ heq)
          omega)

/-- C9: replaying any burst of N >= 1 calls in which consecutive calls are
separated by less than the delay produces exactly one downstream
invocation, it fires one full delay after the last call of the burst, and
it carries the arguments of the last call; the arguments of every earlier
call are discarded. -/
theorem debounce_delivers_last_args_after_quiet {α : Type} (delay : Nat)
    (calls : List (Nat × α)) (t : Nat) (a : α)
    (hrapid : rapidBurst delay calls = true)
    (hlast : calls.getLast? = some (t, a)) :
    debounceRun delay calls none = [(t + delay, a)] := by
  cases calls with
  | nil => simp at hlast
  | cons hd rest =>
    obtain ⟨t₁, a₁⟩ := hd
    cases rest with
    | nil =>
      simp at hlast
      obtain ⟨rfl, rfl⟩ := hlast
      simp [debounceRun]
    | cons hd₂ rest₂ =>
      obtain ⟨t₂, a₂⟩ := hd₂
      simp only [rapidBurst, Bool.and_eq_true, decide_eq_true_eq] at hrapid
      obtain ⟨⟨h12, hgap⟩, hrapid₂⟩ := hrapid
      have hlast₂ : ((t₂, a₂) :: rest₂).getLast? = some (t, a) := by
        simpa [List.getLast?_cons_cons] using hlast
      simp only [debounceRun]
      exact debounceRun_rapid_pending delay ((t₂, a₂) :: rest₂) (t₁ + delay)
        a₁ t a hrapid₂ hlast₂
        (fun t' a' rest' heq => by
          obtain ⟨h₁, -⟩ := Prod.mk.injEq .. ▸ (List.cons.injEq .. ▸ heq)
          omega)

/-- Witness for C9: three rapid calls with the default 1000ms delay deliver
one downstream call, 1000ms after the third call, with the third call's
arguments. -/
theorem debounce_delivers_witness :
    debounceRun 1000 [(0, "a"), (500, "b"), (900, "c")] none =
      [(1900, "c")] :=
  debounce_delivers_last_args_after_quiet 1000
    [(0, "a"), (500, "b"), (900, "c")] 900 "c" (by decide) (by decide)

@[simp]
theorem providerCallEvents_append (l₁ l₂ : List DispatchEv) :
    providerCallEvents (l₁ ++ l₂) =
      providerCallEvents l₁ ++ providerCallEvents l₂ :=
  List.filter_append ..

@[simp]
theorem submittedIds_append (l₁ l₂ : List DispatchEv) :
    submittedIds (l₁ ++ l₂) = submittedIds l₁ ++ submittedIds l₂ :=
  List.filterMap_append ..

@[simp]
theorem providerCallEvents_submit (n : Nat) :
    providerCallEvents [DispatchEv.submit n] = [] := rfl

@[simp]
theorem providerCallEvents_callStart (n : Nat) :
    providerCallEvents [DispatchEv.callStart n] = [DispatchEv.callStart n] :=
  rfl

@[simp]
theorem providerCallEvents_callEnd (n : Nat) :
    providerCallEvents [DispatchEv.callEnd n] = [DispatchEv.callEnd n] := rfl

@[simp]
theorem providerCallEvents_close :
    providerCallEvents [DispatchEv.close] = [] := rfl

@[simp]
theorem providerCallEvents_workerExit :
    providerCallEvents [DispatchEv.workerExit] = [] := rfl

@[simp]
theorem submittedIds_submit (n : Nat) :
    submittedIds [DispatchEv.submit n] = [n] := rfl

@[simp]
theorem submittedIds_callStart (n : Nat) :
    submittedIds [DispatchEv.callStart n] = [] := rfl

@[simp]
theorem submittedIds_callEnd (n : Nat) :
    submittedIds [DispatchEv.callEnd n] = [] := rfl

@[simp]
theorem submittedIds_close : submittedIds [DispatchEv.close] = [] := rfl

@[simp]
theorem submittedIds_workerExit :
    submittedIds [DispatchEv.workerExit] = [] := rfl

@[simp]
theorem completedPairs_append (l : List Nat) (n : Nat) :
    completedPairs (l ++ [n]) =
      completedPairs l ++ [DispatchEv.callStart n, DispatchEv.callEnd n] := by
  simp [completedPairs]

/-- Helper: every dispatcher step preserves the run invariant. -/
theorem DInv_step {evs : List DispatchEv} {s : DispatchState}
    {e : DispatchEv} {s' : DispatchState}
    (hinv : DInv evs s) (hstep : DStep s e s') : DInv (evs ++ [e]) s' := by
  obtain ⟨h₁, h₂, h₃⟩ := hinv
  cases hstep with
  | submit hc hlen =>
    refine ⟨by simp [h₁], by simp [h₂, List.range_succ], ?_⟩
    rw [List.range_succ, ← h₃]
    simp
  | callStart n rest hw hb hq =>
    rw [hb] at h₁ h₃
    refine ⟨by simp [h₁, pendingCall], by simp [h₂], ?_⟩
    rw [← h₃, hq]
    simp [pendingCall]
  | callEnd n hb =>
    rw [hb] at h₁ h₃
    refine ⟨by simp [h₁, pendingCall], by simp [h₂], ?_⟩
    rw [← h₃]
    simp
  | close =>
    exact ⟨by simp [h₁], by simp [h₂], by simpa using h₃⟩
  | workerExit hc hb hw =>
    exact ⟨by simp [h₁], by simp [h₂], by simpa using h₃⟩

/-- Helper: the run invariant holds along every trace. -/
theorem DInv_trace {s₁ : DispatchState} {evs : List DispatchEv}
    {s₂ : DispatchState} (h : DTrace s₁ evs s₂) :
    ∀ evs₀, DInv evs₀ s₁ → DInv (evs₀ ++ evs) s₂ := by
  induction h with
  | nil => intro evs₀ h₀; simpa using h₀
  | snoc ht hs ih =>
    intro evs₀ h₀
    rw [← List.append_assoc]
    exact DInv_step (ih evs₀ h₀) hs

/-- Helper: the invariant at the initial dispatcher state. -/
theorem DInv_init : DInv [] initDispatch :=
  ⟨rfl, rfl, rfl⟩

/-- C1: along every run of a dispatcher client from construction, the
provider-call events are exactly the begin/end pairs of the delivered
requests in order, followed by at most one still-running begin — so each
provider call runs to completion before the next begins and no two calls
from the same instance ever overlap — and the submission order equals the
delivered requests, then the in-flight request, then the still-queued
requests: queued requests are serviced strictly in submission order. -/
theorem dispatcher_serializes_submission_order :
    ∀ (evs : List DispatchEv) (s : DispatchState),
      DTrace initDispatch evs s →
      providerCallEvents evs =
          completedPairs s.finished ++ pendingCall s.busy ∧
        submittedIds evs = s.finished ++ s.busy.toList ++ s.queue := by
  intro evs s h
  have hinv := DInv_trace h [] DInv_init
  rw [List.nil_append] at hinv
  obtain ⟨h₁, h₂, h₃⟩ := hinv
  exact ⟨h₁, by rw [h₂, ← h₃]⟩

/-- Witness for C1 on the concrete run submit, begin, end. -/
theorem dispatcher_serializes_witness :
    providerCallEvents
        [DispatchEv.submit 0, DispatchEv.callStart 0, DispatchEv.callEnd 0] =
        completedPairs [0] ++ pendingCall none ∧
      submittedIds
          [DispatchEv.submit 0, DispatchEv.callStart 0,
            DispatchEv.callEnd 0] =
        [0] ++ (none : Option Nat).toList ++ [] := by
  have h₁ : DStep initDispatch (DispatchEv.submit 0)
      ⟨1, [0], none, [], false, true⟩ :=
    DStep.submit initDispatch rfl (by decide)
  have h₂ : DStep ⟨1, [0], none, [], false, true⟩ (DispatchEv.callStart 0)
      ⟨1, [], some 0, [], false, true⟩ :=
    DStep.callStart _ 0 [] rfl rfl rfl
  have h₃ : DStep ⟨1, [], some 0, [], false, true⟩ (DispatchEv.callEnd 0)
      ⟨1, [], none, [0], false, true⟩ :=
    DStep.callEnd _ 0 rfl
  exact dispatcher_serializes_submission_order _
    ⟨1, [], none, [0], false, true⟩
    (DTrace.snoc (DTrace.snoc (DTrace.snoc (DTrace.nil _) h₁) h₂) h₃)

/-- Helper: once the worker has exited and no call is in flight, every
further step keeps the worker dead, the in-flight slot empty, and the
delivered list unchanged — nothing can ever fulfill a queued request. -/
theorem deadIdle_step {s : DispatchState} {e : DispatchEv}
    {s' : DispatchState} (h : DStep s e s')
    (hw : s.workerAlive = false) (hb : s.busy = none) :
    s'.workerAlive = false ∧ s'.busy = none ∧ s'.finished = s.finished := by
  cases h with
  | submit hc hlen => exact ⟨hw, hb, rfl⟩
  | callStart n rest hwt hbt hq => rw [hw] at hwt; cases hwt
  | callEnd n hbt => rw [hb] at hbt; cases hbt
  | close => exact ⟨hw, hb, rfl⟩
  | workerExit hc hbt hwt => rw [hw] at hwt; cases hwt

/-- Helper: the dead-and-idle property persists along every trace. -/
theorem deadIdle_trace {s : DispatchState} {evs : List DispatchEv}
    {s' : DispatchState} (h : DTrace s evs s')
    (hw : s.workerAlive = false) (hb : s.busy = none) :
    s'.workerAlive = false ∧ s'.busy = none ∧ s'.finished = s.finished := by
  induction h with
  | nil => exact ⟨hw, hb, rfl⟩
  | snoc ht hs ih =>
    obtain ⟨w, b, f⟩ := ih
    obtain ⟨w', b', f'⟩ := deadIdle_step hs w b
    exact ⟨w', b', f'.trans f⟩

/-- C7 counterexample: after submitting request 0, closing the client, and
the worker exiting through the canceled context (one legal resolution of
the select), request 0 is still queued and no continuation of the run ever
delivers a result or error for it — the model has no event at all that
hands a queued caller a Cancelled/Closed error, matching the Go code where
such a caller is unblocked only by its own context. The caller therefore
blocks forever instead of observing an error in bounded time. -/
theorem queued_request_never_completed_after_close :
    DTrace initDispatch
        [DispatchEv.submit 0, DispatchEv.close, DispatchEv.workerExit]
        stuckDispatchState ∧
      stuckDispatchState.queue = [0] ∧
      stuckDispatchState.finished = [] ∧
      neverCompleted stuckDispatchState 0 := by
  refine ⟨?_, rfl, rfl, ?_⟩
  · have h₁ : DStep initDispatch (DispatchEv.submit 0)
        ⟨1, [0], none, [], false, true⟩ :=
      DStep.submit initDispatch rfl (by decide)
    have h₂ : DStep ⟨1, [0], none, [], false, true⟩ DispatchEv.close
        ⟨1, [0], none, [], true, true⟩ :=
      DStep.close _
    have h₃ : DStep ⟨1, [0], none, [], true, true⟩ DispatchEv.workerExit
        stuckDispatchState :=
      DStep.workerExit _ rfl rfl rfl
    exact DTrace.snoc (DTrace.snoc (DTrace.snoc (DTrace.nil _) h₁) h₂) h₃
  · intro evs s' htr
    obtain ⟨-, -, hf⟩ := deadIdle_trace htr rfl rfl
    simp [hf, stuckDispatchState]

/-- C7 amended: Close is idempotent — any number of calls fires the cancel
and the channel close exactly once and returns nil every time — but a
request still queued once the worker has exited is never completed by the
client: no Cancelled/Closed error is delivered, and such a caller is
unblocked only by its own context. -/
theorem close_idempotent_no_error_delivery :
    (∀ s, (closeClient s).2 = none) ∧
      (∀ n, 1 ≤ n → closeClientIter n ⟨false, 0, 0⟩ = ⟨true, 1, 1⟩) ∧
      ∀ (s : DispatchState) (evs : List DispatchEv) (s' : DispatchState),
        DTrace s evs s' → s.workerAlive = false → s.busy = none →
        s'.finished = s.finished := by
  refine ⟨?_, ?_, ?_⟩
  · intro s
    unfold closeClient
    split <;> rfl
  · have hfix : ∀ n (s : CloseOnceState), s.onceDone = true →
        closeClientIter n s = s := by
      intro n
      induction n with
      | zero => intro s _; rfl
      | succ k ih =>
        intro s hs
        have : closeClient s = (s, none) := by
          unfold closeClient
          rw [if_pos hs]
        simp [closeClientIter, this, ih s hs]
    intro n hn
    obtain ⟨k, rfl⟩ : ∃ k, n = k + 1 := ⟨n - 1, by omega⟩
    have h1 : closeClient ⟨false, 0, 0⟩ = (⟨true, 1, 1⟩, none) := rfl
    simp [closeClientIter, h1, hfix k ⟨true, 1, 1⟩ rfl]
  · intro s evs s' htr hw hb
    exact (deadIdle_trace htr hw hb).2.2

/-- Witness for C7 amended: three closes fire the effects once, and a step
taken from the stuck state delivers nothing. -/
theorem close_idempotent_witness :
    closeClientIter 3 ⟨false, 0, 0⟩ = ⟨true, 1, 1⟩ ∧
      (⟨1, [0], none, [], true, false⟩ : DispatchState).finished =
        stuckDispatchState.finished := by
  refine ⟨close_idempotent_no_error_delivery.2.1 3 (by decide), ?_⟩
  have hstep : DStep stuckDispatchState DispatchEv.close
      ⟨1, [0], none, [], true, false⟩ :=
    DStep.close _
  exact close_idempotent_no_error_delivery.2.2 stuckDispatchState
    [DispatchEv.close] ⟨1, [0], none, [], true, false⟩
    (DTrace.snoc (DTrace.nil _) hstep) rfl rfl

/-- Helper: two elements that agree on every inspected field to within the
epsilon compare as unchanged. -/
theorem elementDiffers_of_close {p n : ExcalidrawElement}
    (h : elementClose p n) : elementDiffers p n = false := by
  obtain ⟨-, hv, hd, hx, hy, hw, hh⟩ := h
  simp [elementDiffers, hv, hd, not_lt.mpr hx, not_lt.mpr hy,
    not_lt.mpr hw, not_lt.mpr hh]

/-- Helper: updating matching keys in two pointwise-related maps preserves
the pointwise relation. -/
theorem forall₂_map_update {m₁ m₂ : List (String × ExcalidrawElement)}
    (hm : List.Forall₂ (fun p q => p.1 = q.1 ∧ elementClose p.2 q.2) m₁ m₂)
    {e₁ e₂ : ExcalidrawElement} (he : elementClose e₁ e₂) :
    List.Forall₂ (fun p q => p.1 = q.1 ∧ elementClose p.2 q.2)
      (m₁.map fun p => if p.1 = e₁.id then (p.1, e₁) else p)
      (m₂.map fun p => if p.1 = e₂.id then (p.1, e₂) else p) := by
  have hid : e₁.id = e₂.id := he.1
  induction hm with
  | nil => simp
  | cons hpq htail ih =>
    simp only [List.map_cons]
    refine List.Forall₂.cons ?_ ih
    rename_i a b l₁ l₂
    by_cases hp : a.1 = e₁.id
    · have hq : b.1 = e₂.id := by rw [← hpq.1, ← hid]; exact hp
      simp only [hp, hq, if_true]
      exact ⟨hid, he⟩
    · have hq : ¬ b.1 = e₂.id := by rw [← hpq.1, ← hid]; exact hp
      simp only [hp, hq, if_false]
      exact hpq

/-- Helper: JavaScript map insertion preserves the pointwise relation. -/
theorem jsMapInsert_forall₂ {m₁ m₂ : List (String × ExcalidrawElement)}
    {e₁ e₂ : ExcalidrawElement}
    (hm : List.Forall₂ (fun p q => p.1 = q.1 ∧ elementClose p.2 q.2) m₁ m₂)
    (he : elementClose e₁ e₂) :
    List.Forall₂ (fun p q => p.1 = q.1 ∧ elementClose p.2 q.2)
      (jsMapInsert m₁ e₁) (jsMapInsert m₂ e₂) := by
  have hid : e₁.id = e₂.id := he.1
  have hany : (m₁.any fun p => p.1 = e₁.id) = (m₂.any fun p => p.1 = e₂.id) := by
    induction hm with
    | nil => rfl
    | cons hpq htail ih =>
      rw [hid] at ih
      simp [hpq.1, hid, ih]
  unfold jsMapInsert
  rw [hany]
  by_cases hc : (m₂.any fun p => p.1 = e₂.id) = true
  · simp only [hc, if_true]
    exact forall₂_map_update hm he
  · simp only [hc, if_false]
    exact List.rel_append hm
      (List.Forall₂.cons ⟨hid, he⟩ List.Forall₂.nil)

/-- Helper: building the JavaScript maps of two pointwise-close element
arrays yields pointwise-related maps. -/
theorem jsMapOfElements_forall₂ {l₁ l₂ : List ExcalidrawElement}
    (h : List.Forall₂ elementClose l₁ l₂) :
    List.Forall₂ (fun p q => p.1 = q.1 ∧ elementClose p.2 q.2)
      (jsMapOfElements l₁) (jsMapOfElements l₂) := by
  suffices hgen : ∀ acc₁ acc₂,
      List.Forall₂ (fun p q => p.1 = q.1 ∧ elementClose p.2 q.2) acc₁ acc₂ →
      List.Forall₂ (fun p q => p.1 = q.1 ∧ elementClose p.2 q.2)
        (l₁.foldl jsMapInsert acc₁) (l₂.foldl jsMapInsert acc₂) from
    hgen [] [] List.Forall₂.nil
  induction h with
  | nil => intro acc₁ acc₂ hacc; exact hacc
  | cons he htail ih =>
    intro acc₁ acc₂ hacc
    exact ih _ _ (jsMapInsert_forall₂ hacc he)

/-- Helper: lookups in pointwise-related maps agree: both fail, or both
succeed with close values. -/
theorem lookup_forall₂ {m₁ m₂ : List (String × ExcalidrawElement)}
    (h : List.Forall₂ (fun p q => p.1 = q.1 ∧ elementClose p.2 q.2) m₁ m₂)
    (k : String) :
    (m₁.lookup k = none ∧ m₂.lookup k = none) ∨
      ∃ p q, m₁.lookup k = some p ∧ m₂.lookup k = some q ∧
        elementClose p q := by
  induction h with
  | nil => exact Or.inl ⟨rfl, rfl⟩
  | cons hpq htail ih =>
    rename_i a b l₁ l₂
    by_cases hk : k = a.1
    · refine Or.inr ⟨a.2, b.2, ?_, ?_, hpq.2⟩
      · have hb : (k == a.1) = true := by simpa using hk
        simp [List.lookup, hb]
      · have hb : (k == b.1) = true := by simpa [← hpq.1] using hk
        simp [List.lookup, hb]
    · have hk' : k ≠ b.1 := by rw [← hpq.1]; exact hk
      have hb₁ : (k == a.1) = false := beq_eq_false_iff_ne.mpr hk
      have hb₂ : (k == b.1) = false := beq_eq_false_iff_ne.mpr hk'
      have e₁ : (a :: l₁).lookup k = l₁.lookup k := by
        simp [List.lookup, hb₁]
      have e₂ : (b :: l₂).lookup k = l₂.lookup k := by
        simp [List.lookup, hb₂]
      rw [e₁, e₂]
      exact ih

/-- Helper: the keys of a JavaScript-map insertion: unchanged when the key
exists, appended otherwise. -/
theorem jsMapInsert_keys (m : List (String × ExcalidrawElement))
    (e : ExcalidrawElement) :
    (jsMapInsert m e).map Prod.fst =
      if m.any (fun p => p.1 = e.id) then m.map Prod.fst
      else m.map Prod.fst ++ [e.id] := by
  unfold jsMapInsert
  by_cases hc : (m.any fun p => p.1 = e.id) = true
  · simp only [hc, if_true, List.map_map]
    congr 1
    funext p
    by_cases hp : p.1 = e.id <;> simp [hp]
  · simp only [hc, if_false]
    simp

/-- Helper: the JavaScript map of an element list has no duplicate keys. -/
theorem jsMapOfElements_keys_nodup (l : List ExcalidrawElement) :
    ((jsMapOfElements l).map Prod.fst).Nodup := by
  suffices hgen : ∀ acc : List (String × ExcalidrawElement),
      (acc.map Prod.fst).Nodup →
      ((l.foldl jsMapInsert acc).map Prod.fst).Nodup from
    hgen [] (by simp)
  induction l with
  | nil => intro acc hacc; exact hacc
  | cons e tl ih =>
    intro acc hacc
    refine ih (jsMapInsert acc e) ?_
    rw [jsMapInsert_keys]
    by_cases hc : (acc.any fun p => p.1 = e.id) = true
    · simpa [hc] using hacc
    · have hnotin : e.id ∉ acc.map Prod.fst := by
        intro hmem
        obtain ⟨p, hp, hpe⟩ := List.mem_map.mp hmem
        exact hc (List.any_eq_true.mpr ⟨p, hp, by simp [hpe]⟩)
      rw [if_neg hc, List.nodup_append]
      refine ⟨hacc, List.nodup_singleton _, fun x hx hx' => ?_⟩
      rw [List.mem_singleton] at hx'
      exact hnotin (hx' ▸ hx)

/-- Helper: in a map without duplicate keys, looking up the key of a member
entry returns exactly that entry's value. -/
theorem lookup_of_mem_nodupKeys {m : List (String × ExcalidrawElement)}
    (hnd : (m.map Prod.fst).Nodup) {entry : String × ExcalidrawElement}
    (hmem : entry ∈ m) : m.lookup entry.1 = some entry.2 := by
  induction m with
  | nil => cases hmem
  | cons a t ih =>
    rcases List.mem_cons.mp hmem with rfl | hmem'
    · have hb : (entry.1 == entry.1) = true := by simp
      simp [List.lookup, hb]
    · have hkey : entry.1 ∈ t.map Prod.fst :=
        List.mem_map.mpr ⟨entry, hmem', rfl⟩
      have hnd' : (a.1 :: t.map Prod.fst).Nodup := by
        simpa only [List.map_cons] using hnd
      have hne : entry.1 ≠ a.1 := by
        intro heq
        have := (List.nodup_cons.mp hnd').1
        rw [heq] at hkey
        exact this hkey
      have hb : (entry.1 == a.1) = false := beq_eq_false_iff_ne.mpr hne
      have ht : (t.map Prod.fst).Nodup := (List.nodup_cons.mp hnd').2
      simp [List.lookup, hb, ih ht hmem']

/-- C10: two equal-length element arrays whose elements pairwise share ids
and agree on version, the tombstone flag, and on x, y, width and height to
within the epsilon are reported unchanged — whatever their other fields
(stroke color, background color, label text) do — so such edits are never
forwarded to the debounced notifier by handleChange. -/
theorem epsilon_equal_elements_not_forwarded :
    ∀ prev next : List ExcalidrawElement,
      List.Forall₂ elementClose prev next →
      elementsHaveChanged prev next = false ∧
        (handleChange ⟨prev⟩ next).2 = false := by
  intro prev next h
  have hlen : prev.length = next.length := h.length_eq
  have hmap := jsMapOfElements_forall₂ h
  have hmaplen : (jsMapOfElements prev).length =
      (jsMapOfElements next).length := hmap.length_eq
  have hmain : elementsHaveChanged prev next = false := by
    simp only [elementsHaveChanged]
    rw [if_neg (by simp [hlen]), if_neg (by simp [hmaplen])]
    rw [List.any_eq_false]
    intro entry hmem
    have hnd := jsMapOfElements_keys_nodup next
    have hlook : (jsMapOfElements next).lookup entry.1 = some entry.2 :=
      lookup_of_mem_nodupKeys hnd hmem
    rcases lookup_forall₂ hmap entry.1 with ⟨h₁, h₂⟩ | ⟨p, q, hp, hq, hpq⟩
    · rw [hlook] at h₂
      cases h₂
    · rw [hlook] at hq
      injection hq with hq'
      rw [hp]
      subst hq'
      simpa using elementDiffers_of_close hpq
  exact ⟨hmain, by simpa [handleChange] using hmain⟩

/-- Witness for C10: a restyled, slightly moved element (same id, version
and tombstone flag, position within the epsilon, different stroke color,
background color and label) is not forwarded. -/
theorem epsilon_equal_witness :
    elementsHaveChanged [elA] [elA'] = false ∧
      (handleChange ⟨[elA]⟩ [elA']).2 = false :=
  epsilon_equal_elements_not_forwarded [elA] [elA']
    (List.Forall₂.cons
      (by
        refine ⟨rfl, rfl, rfl, ?_, ?_, ?_, ?_⟩ <;>
          · simp only [elA, elA', changeEps]
            norm_num [abs_le])
      List.Forall₂.nil)

/-- Helper: a pointwise-equal predicate gives an equal `any`. -/
theorem listAny_congr {α : Type} {l : List α} {f g : α → Bool}
    (h : ∀ x ∈ l, f x = g x) : l.any f = l.any g := by
  induction l with
  | nil => rfl
  | cons a t ih =>
    simp only [List.any_cons, h a (List.mem_cons_self a t),
      ih fun x hx => h x (List.mem_cons_of_mem a hx)]

/-- Helper: `any` distributes over a pointwise disjunction. -/
theorem listAny_orFun {α : Type} (l : List α) (f g : α → Bool) :
    l.any (fun x => f x || g x) = (l.any f || l.any g) := by
  induction l with
  | nil => rfl
  | cons a t ih =>
    cases hf : f a <;> cases hg : g a <;>
      simp only [List.any_cons, hf, hg, ih, Bool.false_or, Bool.true_or,
        Bool.or_assoc, Bool.or_comm, Bool.or_left_comm]

/-- Helper: with no duplicate ids, the JavaScript map of an element list is
the list of (id, element) pairs in order. -/
theorem jsMapOfElements_of_nodup :
    ∀ (l : List ExcalidrawElement), (l.map fun e => e.id).Nodup →
      jsMapOfElements l = l.map fun e => (e.id, e) := by
  suffices hgen : ∀ (l : List ExcalidrawElement),
      (l.map fun e => e.id).Nodup →
      ∀ acc : List (String × ExcalidrawElement),
        (∀ e ∈ l, (acc.any fun p => p.1 = e.id) = false) →
        l.foldl jsMapInsert acc = acc ++ l.map fun e => (e.id, e) by
    intro l h
    simpa using hgen l h [] (fun e _ => rfl)
  intro l
  induction l with
  | nil =>
    intro _ acc _
    simp
  | cons e tl ih =>
    intro h acc hdisj
    have hnd' : (e.id :: tl.map fun x => x.id).Nodup := by
      simpa only [List.map_cons] using h
    obtain ⟨hnotin, hndtl⟩ := List.nodup_cons.mp hnd'
    have hins : jsMapInsert acc e = acc ++ [(e.id, e)] := by
      unfold jsMapInsert
      rw [if_neg (by simp [hdisj e (List.mem_cons_self e tl)])]
    have hdisj' : ∀ e' ∈ tl,
        ((acc ++ [(e.id, e)]).any fun p => p.1 = e'.id) = false := by
      intro e' he'
      rw [List.any_append]
      have h₁ : (acc.any fun p => p.1 = e'.id) = false :=
        hdisj e' (List.mem_cons_of_mem e he')
      have hne : e.id ≠ e'.id := by
        intro heq
        exact hnotin (heq ▸ List.mem_map.mpr ⟨e', he', rfl⟩)
      simp [h₁, hne]
    rw [List.foldl_cons, hins, ih hndtl (acc ++ [(e.id, e)]) hdisj']
    simp

/-- Helper: looking up a key in the (id, element) pair list is searching the
element list for that id. -/
theorem lookup_mapIdPair (l : List ExcalidrawElement) (k : String) :
    (l.map fun e => (e.id, e)).lookup k = l.find? fun e => k == e.id := by
  induction l with
  | nil => rfl
  | cons e tl ih =>
    by_cases hk : k = e.id
    · have hb : (k == e.id) = true := by simpa using hk
      simp [List.lookup, List.find?, hb]
    · have hb : (k == e.id) = false := beq_eq_false_iff_ne.mpr hk
      simp [List.lookup, List.find?, hb, ih]

/-- Helper: with no duplicate ids, a guarded `any` over the unique element
carrying a given id reduces to the guard body at that element. -/
theorem listAny_unique_id {l : List ExcalidrawElement}
    (hnd : (l.map fun e => e.id).Nodup) {p : ExcalidrawElement} (hp : p ∈ l)
    {k : String} (hk : p.id = k) (f : ExcalidrawElement → Bool) :
    (l.any fun q => (q.id == k) && f q) = f p := by
  induction l with
  | nil => cases hp
  | cons e tl ih =>
    have hnd' : (e.id :: tl.map fun x => x.id).Nodup := by
      simpa only [List.map_cons] using hnd
    obtain ⟨hnotin, hndtl⟩ := List.nodup_cons.mp hnd'
    rcases List.mem_cons.mp hp with rfl | hp'
    · have hb : (p.id == k) = true := by simpa using hk
      have htail : (tl.any fun q => (q.id == k) && f q) = false := by
        rw [List.any_eq_false]
        intro q hq
        have hqk : q.id ≠ k := by
          intro he
          exact hnotin (List.mem_map.mpr ⟨q, hq, by rw [he, ← hk]⟩)
        simp [hqk]
      simp only [List.any_cons, hb, Bool.true_and, htail, Bool.or_false]
    · have hne : e.id ≠ k := by
        intro he
        refine hnotin (List.mem_map.mpr ⟨p, hp', ?_⟩)
        rw [hk, ← he]
      have hb : (e.id == k) = false := beq_eq_false_iff_ne.mpr hne
      simp only [List.any_cons, hb, Bool.false_and, Bool.false_or]
      exact ih hndtl hp'

/-- Helper: `any` over a mapped list. -/
theorem listAny_mapFn {α β : Type} (l : List α) (f : α → β) (p : β → Bool) :
    (l.map f).any p = l.any fun x => p (f x) := by
  induction l with
  | nil => rfl
  | cons a t ih => simp only [List.map_cons, List.any_cons, ih]

/-- Helper: every element is close to itself. -/
theorem elementClose_refl (e : ExcalidrawElement) : elementClose e e := by
  refine ⟨rfl, rfl, rfl, ?_, ?_, ?_, ?_⟩ <;>
    · simp only [sub_self, abs_zero, changeEps]
      norm_num

/-- C8 counterexample: with duplicate ids the code and the claimed predicate
disagree. The previous array holds two distinct elements, the new array
holds the first element twice: every id of the new array is present in the
previous one with an identical element and the element counts agree, so the
claimed predicate is false, yet the code reports a change because the two
JavaScript maps have different sizes. -/
theorem elementsHaveChanged_duplicate_ids_cex :
    elementsHaveChanged [elA, elB] [elA, elA] = true ∧
      specElementsChanged [elA, elB] [elA, elA] = false := by
  constructor
  · decide
  · have hd : elementDiffers elA elA = false :=
      elementDiffers_of_close (elementClose_refl elA)
    have h1 : (elB.id == elA.id) = false := by decide
    simp [specElementsChanged, hd, h1]

/-- C8 amended: for element arrays without duplicate ids,
`elementsHaveChanged` returns true exactly when the element counts differ,
some id present in the new array is absent from the previous one, or some
shared id differs in version, in the tombstone flag, or in x, y, width or
height by more than the epsilon; and handleChange forwards a scene to the
debounced notifier exactly when this comparison holds on the previous and
new element arrays. -/
theorem elementsHaveChanged_matches_spec_nodup :
    (∀ prev next : List ExcalidrawElement,
        (prev.map fun e => e.id).Nodup → (next.map fun e => e.id).Nodup →
        elementsHaveChanged prev next = specElementsChanged prev next) ∧
      ∀ (st : WhiteboardRefState) (updated : List ExcalidrawElement),
        (handleChange st updated).2 =
          elementsHaveChanged st.previousElements updated := by
  refine ⟨?_, fun st u => rfl⟩
  intro prev next hp hn
  by_cases hlen : prev.length = next.length
  · simp only [elementsHaveChanged, specElementsChanged]
    rw [if_neg (by simp [hlen])]
    rw [jsMapOfElements_of_nodup prev hp, jsMapOfElements_of_nodup next hn]
    rw [if_neg (by simp [hlen])]
    have hbne : (prev.length != next.length) = false := by simpa using hlen
    rw [listAny_mapFn, hbne, Bool.false_or, ← listAny_orFun]
    apply listAny_congr
    intro n hmemn
    simp only [Function.comp]
    rw [lookup_mapIdPair]
    cases hfind : prev.find? (fun e => n.id == e.id) with
    | none =>
      have hall := List.find?_eq_none.mp hfind
      have hA : (prev.any fun q => q.id == n.id) = false := by
        rw [List.any_eq_false]
        intro q hq
        have hnq := hall q hq
        simp only [beq_iff_eq] at hnq ⊢
        exact fun h => hnq h.symm
      simp [hA]
    | some p =>
      have hpmem : p ∈ prev := List.mem_of_find?_eq_some hfind
      have hpid : p.id = n.id := by
        have := List.find?_some hfind
        simp only [beq_iff_eq] at this
        exact this.symm
      have hA : (prev.any fun q => q.id == n.id) = true :=
        List.any_eq_true.mpr ⟨p, hpmem, by simp [hpid]⟩
      have hB : (prev.any fun q => (q.id == n.id) && elementDiffers q n) =
          elementDiffers p n := listAny_unique_id hp hpmem hpid _
      simp [hA, hB]
  · simp only [elementsHaveChanged, specElementsChanged]
    rw [if_pos hlen]
    have hbne : (prev.length != next.length) = true := by simpa using hlen
    simp [hbne]

/-- Witness for C8 amended at concrete duplicate-free arrays. -/
theorem elementsHaveChanged_matches_spec_witness :
    elementsHaveChanged [elA] [elB] = specElementsChanged [elA] [elB] ∧
      (handleChange ⟨[elA]⟩ [elB]).2 = elementsHaveChanged [elA] [elB] :=
  ⟨elementsHaveChanged_matches_spec_nodup.1 [elA] [elB] (by decide) (by decide),
    elementsHaveChanged_matches_spec_nodup.2 ⟨[elA]⟩ [elB]⟩
